import Mathlib

/-!
Verification development for the MateMaTeX 2.0 generation pipeline.

Shallow embedding of the TypeScript front-end modules (zustand store,
pipeline progress view, API client) and, where the backend pipeline
engine is not part of the sources, models built from the specification.
-/

set_option maxRecDepth 4096

namespace MateMaTeX

/- ====================================================================
   Embedding of the zustand store (lib/store.ts).
   ==================================================================== -/

/-- Request parameters of a generation, as in interface GenerationRequest. -/
structure GenerationRequest where
  grade : String
  topic : String
  materialType : String
  languageLevel : String
  numExercises : Int
  difficulty : String
  includeTheory : Bool
  includeExamples : Bool
  includeExercises : Bool
  includeSolutions : Bool
  includeGraphs : Bool
  competencyGoals : List String
  extraInstructions : String
  deriving Repr, DecidableEq

/-- One pipeline step record, as in interface AgentStep. -/
structure AgentStep where
  agent : String
  startedAt : String
  completedAt : Option String
  durationSeconds : Int
  outputSummary : String
  error : String
  retries : Nat
  deriving Repr, DecidableEq

/-- Status union of GenerationResult:
    "pending" | "running" | "completed" | "failed". -/
inductive Status where
  | pending
  | running
  | completed
  | failed
  deriving Repr, DecidableEq

/-- Math verification summary carried in GenerationResult. -/
structure MathVerification where
  claimsChecked : Int
  claimsCorrect : Int
  claimsIncorrect : Int
  allCorrect : Bool
  deriving Repr, DecidableEq

/-- Final result object, as in interface GenerationResult. -/
structure GenerationResult where
  jobId : String
  status : Status
  fullDocument : String
  pdfUrl : String
  steps : List AgentStep
  mathVerification : MathVerification
  latexCompiled : Bool
  totalDuration : Int
  error : String
  deriving Repr, DecidableEq

/-- Optional overrides passed to setRequest, mirroring
    Partial〈GenerationRequest〉 in TypeScript. -/
structure RequestPatch where
  grade : Option String := none
  topic : Option String := none
  materialType : Option String := none
  languageLevel : Option String := none
  numExercises : Option Int := none
  difficulty : Option String := none
  includeTheory : Option Bool := none
  includeExamples : Option Bool := none
  includeExercises : Option Bool := none
  includeSolutions : Option Bool := none
  includeGraphs : Option Bool := none
  competencyGoals : Option (List String) := none
  extraInstructions : Option String := none
  deriving Repr, DecidableEq

/-- Spread-merge of a patch into a request, as in
    ( ...state.request, ...partial ). -/
def mergeRequest (r : GenerationRequest) (p : RequestPatch) : GenerationRequest :=
  { grade := p.grade.getD r.grade
    topic := p.topic.getD r.topic
    materialType := p.materialType.getD r.materialType
    languageLevel := p.languageLevel.getD r.languageLevel
    numExercises := p.numExercises.getD r.numExercises
    difficulty := p.difficulty.getD r.difficulty
    includeTheory := p.includeTheory.getD r.includeTheory
    includeExamples := p.includeExamples.getD r.includeExamples
    includeExercises := p.includeExercises.getD r.includeExercises
    includeSolutions := p.includeSolutions.getD r.includeSolutions
    includeGraphs := p.includeGraphs.getD r.includeGraphs
    competencyGoals := p.competencyGoals.getD r.competencyGoals
    extraInstructions := p.extraInstructions.getD r.extraInstructions }

/-- DEFAULT_REQUEST constant of the store. -/
def DEFAULT_REQUEST : GenerationRequest :=
  { grade := "10. trinn"
    topic := ""
    materialType := "arbeidsark"
    languageLevel := "standard"
    numExercises := 10
    difficulty := "Middels"
    includeTheory := true
    includeExamples := true
    includeExercises := true
    includeSolutions := true
    includeGraphs := true
    competencyGoals := []
    extraInstructions := "" }

/-- The mutable slice of the zustand store (interface AppStore). -/
structure AppState where
  request : GenerationRequest
  isGenerating : Bool
  currentAgent : Option String
  steps : List AgentStep
  result : Option GenerationResult
  showLatexEditor : Bool
  deriving Repr, DecidableEq

/-- Initial store state produced by create(...). -/
def initialState : AppState :=
  { request := DEFAULT_REQUEST
    isGenerating := false
    currentAgent := none
    steps := []
    result := none
    showLatexEditor := false }

/-- setRequest action: merges a partial request into the current one. -/
def setRequest (p : RequestPatch) (s : AppState) : AppState :=
  { s with request := mergeRequest s.request p }

/-- resetRequest action: restores DEFAULT_REQUEST. -/
def resetRequest (s : AppState) : AppState :=
  { s with request := DEFAULT_REQUEST }

/-- startGeneration action. -/
def startGeneration (s : AppState) : AppState :=
  { s with isGenerating := true, currentAgent := none, steps := [], result := none }

/-- addStep action: appends the step to the step list. -/
def addStep (step : AgentStep) (s : AppState) : AppState :=
  { s with steps := s.steps ++ [step] }

/-- setCurrentAgent action. -/
def setCurrentAgent (a : Option String) (s : AppState) : AppState :=
  { s with currentAgent := a }

/-- setResult action: installs the result and stops generating. -/
def setResult (r : GenerationResult) (s : AppState) : AppState :=
  { s with result := some r, isGenerating := false, currentAgent := none }

/-- setError action: installs a synthetic failed result carrying the
    given error text, with empty steps and zeroed verification summary. -/
def setError (e : String) (s : AppState) : AppState :=
  { s with
    result := some
      { jobId := ""
        status := .failed
        fullDocument := ""
        pdfUrl := ""
        steps := []
        mathVerification :=
          { claimsChecked := 0, claimsCorrect := 0
            claimsIncorrect := 0, allCorrect := false }
        latexCompiled := false
        totalDuration := 0
        error := e }
    isGenerating := false }

/-- toggleLatexEditor action. -/
def toggleLatexEditor (s : AppState) : AppState :=
  { s with showLatexEditor := !s.showLatexEditor }

/-- One store action, covering every mutator exposed by useAppStore. -/
inductive Action where
  | setRequest (p : RequestPatch)
  | resetRequest
  | startGeneration
  | addStep (step : AgentStep)
  | setCurrentAgent (a : Option String)
  | setResult (r : GenerationResult)
  | setError (e : String)
  | toggleLatexEditor
  deriving Repr, DecidableEq

/-- Interpretation of an action on the store state. -/
def applyAction : Action → AppState → AppState
  | .setRequest p, s => setRequest p s
  | .resetRequest, s => resetRequest s
  | .startGeneration, s => startGeneration s
  | .addStep st, s => addStep st s
  | .setCurrentAgent a, s => setCurrentAgent a s
  | .setResult r, s => setResult r s
  | .setError e, s => setError e s
  | .toggleLatexEditor, s => toggleLatexEditor s

/-- Sequential execution of a list of actions on the store. -/
def applyActions (acts : List Action) (s : AppState) : AppState :=
  acts.foldl (fun st a => applyAction a st) s

/- ====================================================================
   Embedding of the pipeline progress view (pipeline-progress.tsx).
   ==================================================================== -/

/-- Display metadata of one agent as in the AGENT_INFO record
    (the icon, a React node, is not representable and is omitted). -/
structure AgentMeta where
  name : String
  description : String
  color : String
  deriving Repr, DecidableEq

/-- AGENT_INFO record of the pipeline progress view: association list
    from agent key to display metadata, in source order. -/
def AGENT_INFO : List (String × AgentMeta) :=
  [ ("pedagogue",
      { name := "Pedagogen"
        description := "Planlegger innhold basert på LK20..."
        color := "accent-blue" })
  , ("author",
      { name := "Forfatteren"
        description := "Skriver LaTeX med matematikk og illustrasjoner..."
        color := "accent-green" })
  , ("math_verifier",
      { name := "Matematikkverifisering"
        description := "Verifiserer alle beregninger med SymPy..."
        color := "accent-purple" })
  , ("editor",
      { name := "Redaktøren"
        description := "Kvalitetssikrer innholdet..."
        color := "accent-teal" })
  , ("latex_validator",
      { name := "LaTeX-kompilering"
        description := "Kompilerer med pdflatex..."
        color := "accent-orange" })
  , ("latex_fixer",
      { name := "LaTeX-fikser"
        description := "Retter kompileringsfeil..."
        color := "accent-red" }) ]

/-- PIPELINE_ORDER constant: the stage order rendered by the
    progress timeline, in source order. -/
def PIPELINE_ORDER : List String :=
  ["pedagogue", "author", "math_verifier", "editor", "latex_validator"]

/-- Attempt count shown in the retry badge of the progress view,
    rendered as Forsøk (retryCount + 1)/3. -/
def attemptDisplay (retryCount : Nat) : Nat :=
  retryCount + 1

/- ====================================================================
   Embedding of the generation wizard completion handler
   (generation-wizard.tsx, handleGenerate, onComplete).
   ==================================================================== -/

/-- Math verification summary built by handleGenerate from the
    completion payload fields math_checks and math_correct. -/
def mkMathVerification (math_checks math_correct : Int) : MathVerification :=
  { claimsChecked := math_checks
    claimsCorrect := math_correct
    claimsIncorrect := math_checks - math_correct
    allCorrect := math_checks == math_correct }

/- ====================================================================
   Embedding of the API client (lib/api.ts): streamProgress.
   ==================================================================== -/

/-- Server-sent events dispatched to the listeners that streamProgress
    registers on its EventSource: the named events step, current_agent
    and complete, and the connection-error event. -/
inductive SSEvent where
  | step (payload : String)
  | currentAgent (agent : String)
  | complete (payload : String)
  | connError
  deriving Repr, DecidableEq

/-- One callback invocation observed by the caller of streamProgress. -/
inductive CBCall where
  | onStep (payload : String)
  | onCurrentAgent (agent : String)
  | onComplete (payload : String)
  | onError (message : String)
  deriving Repr, DecidableEq

/-- Whether a callback invocation is the terminating
    completion-or-failure notification. -/
def CBCall.isTerminal : CBCall → Bool
  | .onComplete _ => true
  | .onError _ => true
  | _ => false

/-- Whether an event makes streamProgress close its EventSource:
    the complete handler and the error handler both call close(). -/
def closesStream : SSEvent → Bool
  | .complete _ => true
  | .connError => true
  | _ => false

/-- Callback invoked by the listener for one event, per the
    addEventListener registrations in streamProgress. -/
def callbackOf : SSEvent → CBCall
  | .step p => .onStep p
  | .currentAgent a => .onCurrentAgent a
  | .complete p => .onComplete p
  | .connError => .onError "Connection lost"

/-- Trace of callback invocations streamProgress produces for a
    sequence of incoming events: each event fires its listener, and a
    closing event closes the EventSource so no later event is
    delivered. -/
def streamProgressTrace : List SSEvent → List CBCall
  | [] => []
  | e :: rest =>
    if closesStream e then [callbackOf e]
    else callbackOf e :: streamProgressTrace rest

/- ====================================================================
   Embedding of the API client (lib/api.ts): compileLatex response
   shape, and a spec model of the backend compiler adapter.
   ==================================================================== -/

/-- One diagnostic entry of the compileLatex response. -/
structure CompileDiagnostic where
  line : Int
  message : String
  severity : String
  deriving Repr, DecidableEq

/-- Response shape of the compileLatex API wrapper. -/
structure CompileResponse where
  success : Bool
  pdf_base64 : String
  errors : List CompileDiagnostic
  warnings : List CompileDiagnostic
  cached : Bool
  deriving Repr, DecidableEq

/-- Modelled from the spec: result contract of the backend Document
    Compiler Adapter (backend verification/latex code, not among the
    sources): compile returns ok with an artifact, or not-ok with a
    list of (line, message) errors. -/
inductive CompileResult where
  | ok (artifact : String)
  | err (errors : List (Int × String))
  deriving Repr, DecidableEq

/-- Modelled from the spec: raw outcome of the external typesetting
    compiler invoked by the adapter — either a renderable artifact or
    a stream of diagnostic lines. -/
inductive CompilerOutput where
  | success (artifact : String)
  | failure (diagnostics : List String)
  deriving Repr, DecidableEq

/-- Decimal value of a digit sequence. -/
def digitsToNat (cs : List Char) : Nat :=
  cs.foldl (fun n c => n * 10 + (c.toNat - 48)) 0

/-- Modelled from the spec: recover a line number from one diagnostic
    of the compiler stream. A pdflatex-style marker l.N at the start
    of the diagnostic yields line N; otherwise no line is
    recoverable. -/
def recoverLine (d : String) : Option Nat :=
  match d.toList with
  | 'l' :: '.' :: rest =>
    let digits := rest.takeWhile Char.isDigit
    if digits.isEmpty then none else some (digitsToNat digits)
  | _ => none

/-- Message part of a diagnostic carrying a recoverable line marker:
    the text after the digits, with leading spaces removed. -/
def diagMessage (d : String) : String :=
  match d.toList with
  | 'l' :: '.' :: rest =>
    String.mk ((rest.dropWhile Char.isDigit).dropWhile (fun c => c == ' '))
  | _ => d

/-- Modelled from the spec: turn one compiler diagnostic into a
    (line, message) pair; when no line number is recoverable the line
    is 0 and the message passes through verbatim. -/
def parseDiagnostic (d : String) : Int × String :=
  match recoverLine d with
  | some n => ((n : Int), diagMessage d)
  | none => (0, d)

/-- Modelled from the spec: the adapter maps the raw compiler outcome
    to the compile contract, parsing every diagnostic of the stream. -/
def compileAdapter : CompilerOutput → CompileResult
  | .success a => .ok a
  | .failure ds => .err (ds.map parseDiagnostic)

/- ====================================================================
   Spec model of the Pipeline Graph Engine retry loop (the backend
   pipeline/graph.py engine is not among the sources).
   ==================================================================== -/

/-- Modelled from the spec: the pipeline nodes of the engine graph of
    section 4.1 — Plan, Draft, MathVerify, CompileCheck, the CompileFix
    repair node, QualityPass, LayoutPass, DONE, and the terminal failed
    state carrying a reason. -/
inductive EngNode where
  | plan
  | draft
  | mathVerify
  | compileCheck
  | compileFix
  | qualityPass
  | layoutPass
  | done
  | failed (reason : String)
  deriving Repr, DecidableEq

/-- Modelled from the spec: configured retry ceiling, default 3. -/
def retryCeiling : Nat := 3

/-- Modelled from the spec: engine state threaded through the graph:
    current node, one retry counter per repair-capable node (Draft and
    CompileFix, both default 0), and the retry index recorded for each
    repair invocation of either node. -/
structure EngState where
  node : EngNode
  draftRetries : Nat
  fixRetries : Nat
  draftLog : List Nat
  fixLog : List Nat
  deriving Repr, DecidableEq

/-- Modelled from the spec: initial engine state of a run. -/
def engInit : EngState :=
  { node := .plan, draftRetries := 0, fixRetries := 0, draftLog := [], fixLog := [] }

/-- Modelled from the spec: one engine transition. The flag gives the
    outcome of the check performed at the current node (at MathVerify,
    true = some claim incorrect; at CompileCheck, true = compile
    error; ignored elsewhere). A failing check with remaining budget
    consumes one unit of that node's retry counter before re-invoking
    the repair edge, recording the retry index — MathVerify routes
    back to Draft, CompileCheck routes to CompileFix which returns to
    CompileCheck — while an exhausted budget forces the terminal
    failed state; a clean MathVerify proceeds to CompileCheck and a
    clean CompileCheck proceeds through QualityPass and LayoutPass to
    DONE. -/
def engStep (failing : Bool) (s : EngState) : EngState :=
  match s.node with
  | .plan => { s with node := .draft }
  | .draft => { s with node := .mathVerify }
  | .mathVerify =>
    if failing then
      if s.draftRetries < retryCeiling then
        { s with node := .draft
                 draftRetries := s.draftRetries + 1
                 draftLog := s.draftLog ++ [s.draftRetries] }
      else { s with node := .failed "retry_budget_exhausted:draft" }
    else { s with node := .compileCheck }
  | .compileCheck =>
    if failing then
      if s.fixRetries < retryCeiling then
        { s with node := .compileFix
                 fixRetries := s.fixRetries + 1
                 fixLog := s.fixLog ++ [s.fixRetries] }
      else { s with node := .failed "retry_budget_exhausted:compile_fix" }
    else { s with node := .qualityPass }
  | .compileFix => { s with node := .compileCheck }
  | .qualityPass => { s with node := .layoutPass }
  | .layoutPass => { s with node := .done }
  | .done => s
  | .failed _ => s

/-- Modelled from the spec: engine run under an oracle giving the
    outcome of the check performed before each transition. -/
def engRun (o : Nat → Bool) : Nat → EngState
  | 0 => engInit
  | n + 1 => engStep (o n) (engRun o n)

/-- Oracle of a consistently-failing sequence of verifications. -/
def alwaysFail : Nat → Bool := fun _ => true

/-- Oracle whose math verification passes (consulted at transition 2)
    while every compile check fails. -/
def mathOkCompileFail : Nat → Bool := fun n => n != 2

/-- Whether a node is terminal: DONE or failed. -/
def isTerminalNode : EngNode → Bool
  | .done => true
  | .failed _ => true
  | _ => false

/-- Pipeline State status of an engine state: completed at DONE,
    failed at the failed node, running everywhere else. -/
def engStatus (s : EngState) : Status :=
  match s.node with
  | .done => .completed
  | .failed _ => .failed
  | _ => .running

/-- Termination measure of the engine: an upper bound on the number
    of transitions left before a terminal node, decreasing at every
    non-terminal step while the counters stay within the ceiling. -/
def engRank (s : EngState) : Nat :=
  match s.node with
  | .plan => 18
  | .draft => 17 - 2 * s.draftRetries
  | .mathVerify => 16 - 2 * s.draftRetries
  | .compileCheck => 9 - 2 * s.fixRetries
  | .compileFix => 10 - 2 * s.fixRetries
  | .qualityPass => 2
  | .layoutPass => 1
  | .done => 0
  | .failed _ => 0

/- ====================================================================
   Spec model of the Claim Extractor and CAS Verifier (the backend
   verification code is not among the sources).
   ==================================================================== -/

/-- Modelled from the spec: verdict of one extracted claim; incorrect
    carries the expected and the produced value. -/
inductive Verdict where
  | correct
  | incorrect (expected produced : Int)
  | unverifiable
  deriving Repr, DecidableEq

/-- Modelled from the spec: one entry of the verification ledger. -/
structure LedgerEntry where
  fragment : String
  verdict : Verdict
  deriving Repr, DecidableEq

/-- Modelled from the spec: evaluate one side of an equation written
    as a sum of integer literals separated by plus signs. -/
def evalSide (s : String) : Option Int :=
  ((s.splitOn "+").mapM String.toInt?).map (·.sum)

/-- Modelled from the spec: check one document fragment: an equation
    lhs=rhs is verified by evaluating left minus right to zero;
    fragments the extractor cannot parse are recorded unverifiable,
    never dropped. -/
def checkFragment (l : String) : Verdict :=
  match l.splitOn "=" with
  | [lhs, rhs] =>
    match evalSide lhs, evalSide rhs with
    | some a, some b => if a - b = 0 then .correct else .incorrect b a
    | _, _ => .unverifiable
  | _ => .unverifiable

/-- Modelled from the spec: the verification ledger of a document
    source — one entry per extracted fragment, in document order. -/
def verifyLedger (source : String) : List LedgerEntry :=
  (source.splitOn "\n").map fun l => { fragment := l, verdict := checkFragment l }

/-- Modelled from the spec: one run of the Claim Extractor and CAS
    Verifier inside the engine: it reads the document source, returns
    the ledger, and the only surrounding effect is the step appended
    to the shared observability recorder. -/
def runVerifier (source : String) (recorder : List String) :
    List LedgerEntry × List String :=
  (verifyLedger source, recorder ++ ["math_verifier:" ++ source])

/- ====================================================================
   Auxiliary definitions used by the theorems.
   ==================================================================== -/

/-- Status set named by the spec: one of {running, completed, failed}.
    Stated from the spec words, to be compared with the Status type
    embedded from the store. -/
def specStatusSet : List Status :=
  [Status.running, Status.completed, Status.failed]

/-- Wire encoding of an adapter result in the response shape consumed
    by the compileLatex API wrapper. -/
def encodeCompileResult : CompileResult → CompileResponse
  | .ok a =>
    { success := true, pdf_base64 := a, errors := [], warnings := [], cached := false }
  | .err es =>
    { success := false, pdf_base64 := ""
      errors := es.map fun e => { line := e.1, message := e.2, severity := "error" }
      warnings := [], cached := false }

/-- Run invariant of the engine model: both repair counters stay
    within the ceiling, each repair log has one entry per consumed
    unit of its counter, every logged retry index is below the
    ceiling, and a failed node is only reached with one of the two
    budgets fully consumed and a retry_budget_exhausted reason naming
    the exhausted node. -/
structure EngInv (s : EngState) : Prop where
  draft_le : s.draftRetries ≤ retryCeiling
  fix_le : s.fixRetries ≤ retryCeiling
  draft_len : s.draftLog.length = s.draftRetries
  fix_len : s.fixLog.length = s.fixRetries
  draft_lt : ∀ r ∈ s.draftLog, r < retryCeiling
  fix_lt : ∀ r ∈ s.fixLog, r < retryCeiling
  failed_spent : ∀ rsn, s.node = .failed rsn →
    (s.draftRetries = retryCeiling ∨ s.fixRetries = retryCeiling)
    ∧ (rsn = "retry_budget_exhausted:draft"
        ∨ rsn = "retry_budget_exhausted:compile_fix")

/-- A concrete step record used to instantiate store runs. -/
def sampleStep : AgentStep :=
  { agent := "author"
    startedAt := "2025-01-01T10:00:00Z"
    completedAt := some "2025-01-01T10:00:02Z"
    durationSeconds := 2
    outputSummary := "Dokument generert"
    error := ""
    retries := 0 }

/-- A store state in the middle of a run, with one recorded step. -/
def sampleState : AppState :=
  addStep sampleStep (startGeneration initialState)

/- ====================================================================
   Theorems.
   ==================================================================== -/

/-- C1: evaluation of the embedded PIPELINE_ORDER and AGENT_INFO at
    the failing input: the stage list places editor (the quality pass)
    at index 3, before latex_validator (the compile check) at index 4,
    and lists no layout stage, so in the rendered pipeline the quality
    pass precedes the compile check instead of following it. -/
theorem quality_pass_precedes_compile_check :
    PIPELINE_ORDER =
      ["pedagogue", "author", "math_verifier", "editor", "latex_validator"]
    ∧ PIPELINE_ORDER.indexOf "editor" = 3
    ∧ PIPELINE_ORDER.indexOf "latex_validator" = 4
    ∧ PIPELINE_ORDER.indexOf "editor" < PIPELINE_ORDER.indexOf "latex_validator"
    ∧ AGENT_INFO.map Prod.fst =
      ["pedagogue", "author", "math_verifier", "editor", "latex_validator",
        "latex_fixer"] := by
  refine ⟨rfl, by decide, by decide, by decide, rfl⟩

/-- C3 counterexample: the status type embedded from the store admits
    the value pending, which lies outside the three-element status set
    stated by the spec, so the status is not one of exactly
    {running, completed, failed}. -/
theorem status_pending_outside_spec_set :
    Status.pending ∉ specStatusSet := by
  decide

/-- C4 counterexample: from a state holding one accumulated step
    record, setError delivers a failure result whose step list is
    empty, not the accumulated log. -/
theorem setError_result_drops_accumulated_steps :
    (setError "LaTeX-kompilering feilet" sampleState).result.map
        GenerationResult.steps = some []
    ∧ sampleState.steps = [sampleStep]
    ∧ sampleState.steps ≠ [] := by
  refine ⟨rfl, rfl, by simp [sampleState, addStep, startGeneration, initialState]⟩

/-- C4 (amended): a terminal failure delivered through setError
    carries the human-readable reason, but the step list inside the
    result is always empty; the accumulated Step Records survive only
    in the separate steps field of the store, which setError leaves
    unchanged. -/
theorem setError_reason_kept_steps_emptied :
    ∀ (e : String) (st : AppState),
      (setError e st).result.map GenerationResult.error = some e
      ∧ (setError e st).result.map GenerationResult.status = some Status.failed
      ∧ (setError e st).result.map GenerationResult.steps = some []
      ∧ (setError e st).steps = st.steps := by
  intro e st
  refine ⟨rfl, rfl, rfl, rfl⟩

/-- C9: in the completion summary built by handleGenerate from counts
    of correct, incorrect and unverifiable verdicts, the
    incorrect-claim count equals claimsChecked minus claimsCorrect,
    allCorrect holds exactly when no claim is incorrect or
    unverifiable, and trading an incorrect claim for an unverifiable
    one leaves the summary unchanged. -/
theorem math_summary_counts :
    ∀ c i u : Int,
      (mkMathVerification (c + i + u) c).claimsIncorrect = i + u
      ∧ ((mkMathVerification (c + i + u) c).allCorrect = true ↔ i + u = 0)
      ∧ mkMathVerification (c + (i + 1) + u) c
        = mkMathVerification (c + i + (u + 1)) c := by
  intro c i u
  refine ⟨by simp [mkMathVerification]; ring, ?_, ?_⟩
  · simp only [mkMathVerification, beq_iff_eq]
    omega
  · have h : c + (i + 1) + u = c + i + (u + 1) := by ring
    simp [mkMathVerification, h]

/-- C10: the store invariant that a generating run has no result holds
    in the initial state and is preserved by every store action. -/
theorem generating_implies_no_result :
    (initialState.isGenerating = true → initialState.result = none)
    ∧ ∀ (a : Action) (s : AppState),
        (s.isGenerating = true → s.result = none) →
        (applyAction a s).isGenerating = true → (applyAction a s).result = none := by
  refine ⟨fun _ => rfl, ?_⟩
  intro a s h
  cases a <;>
    simp_all [applyAction, setRequest, resetRequest, startGeneration, addStep,
      setCurrentAgent, setResult, setError, toggleLatexEditor]

/-- C10 witness: the preservation theorem applied to startGeneration
    on the initial state. -/
theorem generating_implies_no_result_witness :
    (applyAction Action.startGeneration initialState).result = none :=
  generating_implies_no_result.2 Action.startGeneration initialState
    (fun _ => rfl) rfl

/-- C5: the Claim Extractor and CAS Verifier is deterministic and
    side-effect free: two runs on identical document source, from any
    two ambient recorder states, produce identical verification
    ledgers — same claims, same verdicts, in the same order. -/
theorem verifier_deterministic :
    ∀ (src1 src2 : String) (rec1 rec2 : List String),
      src1 = src2 → (runVerifier src1 rec1).1 = (runVerifier src2 rec2).1 := by
  intro src1 src2 rec1 rec2 h
  subst h
  rfl

/-- C5 witness: two runs on the same three-fragment source from
    different recorder states yield the same ledger. -/
theorem verifier_deterministic_witness :
    (runVerifier "2+2=4\n2+4=10\nfoo" ["run-A"]).1
      = (runVerifier "2+2=4\n2+4=10\nfoo" ["run-B"]).1 :=
  verifier_deterministic _ _ _ _ rfl

/-- C6: the compile contract returns exactly one of two shapes — ok
    with an artifact (success flag set in the wire encoding) or err
    with the parsed (line, message) list — and a diagnostic without a
    recoverable line number is reported at line 0 with its message
    passed through verbatim. -/
theorem compile_result_shape :
    (∀ out : CompilerOutput,
      (∃ a, compileAdapter out = .ok a) ∨ (∃ es, compileAdapter out = .err es))
    ∧ (∀ out : CompilerOutput,
        (encodeCompileResult (compileAdapter out)).success = true
          ↔ ∃ a, compileAdapter out = .ok a)
    ∧ (∀ ds, compileAdapter (.failure ds) = .err (ds.map parseDiagnostic))
    ∧ (∀ d, recoverLine d = none → parseDiagnostic d = (0, d)) := by
  refine ⟨?_, ?_, fun ds => rfl, ?_⟩
  · intro out
    cases out with
    | success a => exact Or.inl ⟨a, rfl⟩
    | failure ds => exact Or.inr ⟨ds.map parseDiagnostic, rfl⟩
  · intro out
    cases out with
    | success a => simp [compileAdapter, encodeCompileResult]
    | failure ds => simp [compileAdapter, encodeCompileResult]
  · intro d h
    simp [parseDiagnostic, h]

/-- C6 witness: the fallback applied to a diagnostic with no
    recoverable line number. -/
theorem compile_result_shape_witness :
    parseDiagnostic "Emergency stop." = (0, "Emergency stop.") :=
  compile_result_shape.2.2.2 "Emergency stop." (by decide)

/-- The engine invariant is preserved by every transition. -/
theorem engStep_inv (f : Bool) (s : EngState) (h : EngInv s) :
    EngInv (engStep f s) := by
  obtain ⟨h1, h2, h3, h4, h5, h6, h7⟩ := h
  rcases s with ⟨node, dr, fr, dlog, flog⟩
  cases node with
  | mathVerify =>
    simp only [engStep]
    by_cases hf : f
    · rw [if_pos hf]
      by_cases hlt : dr < retryCeiling
      · rw [if_pos hlt]
        refine ⟨by simp only [retryCeiling] at *; omega, h2,
          by simpa using h3, h4, ?_, h6, by simp⟩
        intro r hr
        rcases List.mem_append.mp hr with hr | hr
        · exact h5 r hr
        · simp only [List.mem_singleton] at hr
          omega
      · rw [if_neg hlt]
        refine ⟨h1, h2, h3, h4, h5, h6, ?_⟩
        intro rsn hh
        simp only [EngNode.failed.injEq] at hh
        exact ⟨Or.inl (by simp only [retryCeiling] at *; omega), Or.inl hh.symm⟩
    · rw [if_neg hf]
      exact ⟨h1, h2, h3, h4, h5, h6, by simp⟩
  | compileCheck =>
    simp only [engStep]
    by_cases hf : f
    · rw [if_pos hf]
      by_cases hlt : fr < retryCeiling
      · rw [if_pos hlt]
        refine ⟨h1, by simp only [retryCeiling] at *; omega, h3,
          by simpa using h4, h5, ?_, by simp⟩
        intro r hr
        rcases List.mem_append.mp hr with hr | hr
        · exact h6 r hr
        · simp only [List.mem_singleton] at hr
          omega
      · rw [if_neg hlt]
        refine ⟨h1, h2, h3, h4, h5, h6, ?_⟩
        intro rsn hh
        simp only [EngNode.failed.injEq] at hh
        exact ⟨Or.inr (by simp only [retryCeiling] at *; omega), Or.inr hh.symm⟩
    · rw [if_neg hf]
      exact ⟨h1, h2, h3, h4, h5, h6, by simp⟩
  | plan => exact ⟨h1, h2, h3, h4, h5, h6, by simp [engStep]⟩
  | draft => exact ⟨h1, h2, h3, h4, h5, h6, by simp [engStep]⟩
  | compileFix => exact ⟨h1, h2, h3, h4, h5, h6, by simp [engStep]⟩
  | qualityPass => exact ⟨h1, h2, h3, h4, h5, h6, by simp [engStep]⟩
  | layoutPass => exact ⟨h1, h2, h3, h4, h5, h6, by simp [engStep]⟩
  | done => exact ⟨h1, h2, h3, h4, h5, h6, by simp [engStep]⟩
  | failed rsn =>
    refine ⟨h1, h2, h3, h4, h5, h6, ?_⟩
    intro rsn2 hh
    simp only [engStep] at hh
    exact h7 rsn2 hh

/-- The engine invariant holds along every run, for every oracle. -/
theorem engRun_inv (o : Nat → Bool) : ∀ n, EngInv (engRun o n) := by
  intro n
  induction n with
  | zero =>
    refine ⟨?_, ?_, rfl, rfl, ?_, ?_, ?_⟩ <;>
      simp [engRun, engInit, retryCeiling]
  | succ n ih => exact engStep_inv (o n) _ ih

/-- A terminal engine state is a fixpoint of every transition. -/
theorem engStep_terminal (f : Bool) (s : EngState)
    (h : isTerminalNode s.node = true) : engStep f s = s := by
  rcases s with ⟨node, dr, fr, dlog, flog⟩
  cases node <;> first | rfl | simp [isTerminalNode] at h

/-- A run that has reached a terminal state stays there forever. -/
theorem engRun_fixed_from (o : Nat → Bool) (m : Nat)
    (h : isTerminalNode (engRun o m).node = true) :
    ∀ n, m ≤ n → engRun o n = engRun o m := by
  have key : ∀ k, engRun o (m + k) = engRun o m := by
    intro k
    induction k with
    | zero => rfl
    | succ k ih =>
      have h1 : engRun o (m + (k + 1))
          = engStep (o (m + k)) (engRun o (m + k)) := rfl
      rw [h1, ih, engStep_terminal _ _ h]
  intro n hn
  have hk := key (n - m)
  rwa [show m + (n - m) = n by omega] at hk

/-- The termination measure strictly decreases at every non-terminal
    transition. -/
theorem engStep_rank_lt (f : Bool) (s : EngState) (hinv : EngInv s)
    (hterm : isTerminalNode s.node = false) :
    engRank (engStep f s) < engRank s := by
  obtain ⟨h1, h2, _, _, _, _, _⟩ := hinv
  rcases s with ⟨node, dr, fr, dlog, flog⟩
  simp only [retryCeiling] at h1 h2
  cases node with
  | plan => simp [engStep, engRank]; omega
  | draft => simp [engStep, engRank]; omega
  | mathVerify =>
    simp only [engStep]
    by_cases hf : f
    · rw [if_pos hf]
      by_cases hlt : dr < retryCeiling
      · rw [if_pos hlt]
        simp only [retryCeiling] at hlt
        simp [engRank]; omega
      · rw [if_neg hlt]
        simp [engRank]; omega
    · rw [if_neg hf]
      simp [engRank]; omega
  | compileCheck =>
    simp only [engStep]
    by_cases hf : f
    · rw [if_pos hf]
      by_cases hlt : fr < retryCeiling
      · rw [if_pos hlt]
        simp only [retryCeiling] at hlt
        simp [engRank]; omega
      · rw [if_neg hlt]
        simp [engRank]; omega
    · rw [if_neg hf]
      simp [engRank]; omega
  | compileFix => simp [engStep, engRank]; omega
  | qualityPass => simp [engStep, engRank]
  | layoutPass => simp [engStep, engRank]
  | done => simp [isTerminalNode] at hterm
  | failed rsn => simp [isTerminalNode] at hterm

/-- Under the invariant, only terminal states have measure zero. -/
theorem engRank_zero_terminal (s : EngState) (hinv : EngInv s)
    (h : engRank s = 0) : isTerminalNode s.node = true := by
  obtain ⟨h1, h2, _, _, _, _, _⟩ := hinv
  rcases s with ⟨node, dr, fr, dlog, flog⟩
  simp only [retryCeiling] at h1 h2
  cases node <;> simp_all [engRank, isTerminalNode] <;> omega

/-- Along every run, the state is terminal or the measure has
    decreased by at least the number of transitions taken. -/
theorem engRun_progress (o : Nat → Bool) :
    ∀ n, isTerminalNode (engRun o n).node = true
      ∨ engRank (engRun o n) + n ≤ 18 := by
  intro n
  induction n with
  | zero => right; simp [engRun, engInit, engRank]
  | succ n ih =>
    by_cases ht : isTerminalNode (engRun o n).node = true
    · left
      have h1 : engRun o (n + 1) = engStep (o n) (engRun o n) := rfl
      rw [h1, engStep_terminal _ _ ht]
      exact ht
    · rcases ih with ih | ih
      · exact absurd ih ht
      · right
        have hterm : isTerminalNode (engRun o n).node = false := by
          cases h2 : isTerminalNode (engRun o n).node
          · rfl
          · exact absurd h2 ht
        have hlt : engRank (engRun o (n + 1)) < engRank (engRun o n) :=
          engStep_rank_lt (o n) (engRun o n) (engRun_inv o n) hterm
        omega

/-- Every engine run reaches a terminal state within 18 transitions,
    for every oracle of check outcomes. -/
theorem engRun_terminal_at_18 (o : Nat → Bool) :
    isTerminalNode (engRun o 18).node = true := by
  rcases engRun_progress o 18 with h | h
  · exact h
  · exact engRank_zero_terminal _ (engRun_inv o 18) (by omega)

/-- The status of a terminal engine state is completed or failed. -/
theorem engStatus_terminal (s : EngState)
    (h : isTerminalNode s.node = true) :
    engStatus s = .completed ∨ engStatus s = .failed := by
  rcases s with ⟨node, dr, fr, dlog, flog⟩
  cases node <;> simp_all [isTerminalNode, engStatus]

/-- C2: both repair-capable nodes (Draft and CompileFix) have retry
    counters starting at 0 that never exceed the ceiling 3 under any
    oracle of check outcomes; a failed terminal state is only reached
    with exactly ceiling recorded repair attempts of the exhausted
    node; the consistently-failing verification run reaches the failed
    state with reason retry_budget_exhausted:draft after exactly three
    Draft repairs of retry indices 0, 1, 2 and stays there forever (no
    infinite loop), and the consistently-failing compile run likewise
    exhausts exactly three CompileFix repairs; and every attempt count
    displayed by the progress view (retry index + 1) is at most 3. -/
theorem retry_ceiling_respected :
    (engInit.draftRetries = 0 ∧ engInit.fixRetries = 0)
    ∧ (∀ (o : Nat → Bool) (n : Nat),
        (engRun o n).draftRetries ≤ retryCeiling
        ∧ (engRun o n).fixRetries ≤ retryCeiling)
    ∧ (∀ (o : Nat → Bool) (n : Nat) (rsn : String),
        (engRun o n).node = .failed rsn →
          (engRun o n).draftLog.length = retryCeiling
          ∨ (engRun o n).fixLog.length = retryCeiling)
    ∧ engRun alwaysFail 9 =
        { node := .failed "retry_budget_exhausted:draft"
          draftRetries := 3, fixRetries := 0
          draftLog := [0, 1, 2], fixLog := [] }
    ∧ (∀ n, 9 ≤ n → engRun alwaysFail n = engRun alwaysFail 9)
    ∧ engRun mathOkCompileFail 10 =
        { node := .failed "retry_budget_exhausted:compile_fix"
          draftRetries := 0, fixRetries := 3
          draftLog := [], fixLog := [0, 1, 2] }
    ∧ (∀ n, 10 ≤ n → engRun mathOkCompileFail n = engRun mathOkCompileFail 10)
    ∧ (∀ (o : Nat → Bool) (n r : Nat),
        (r ∈ (engRun o n).draftLog ∨ r ∈ (engRun o n).fixLog) →
          attemptDisplay r ≤ 3) := by
  refine ⟨⟨rfl, rfl⟩, ?_, ?_, by decide, ?_, by decide, ?_, ?_⟩
  · intro o n
    exact ⟨(engRun_inv o n).draft_le, (engRun_inv o n).fix_le⟩
  · intro o n rsn h
    have hinv := engRun_inv o n
    rcases (hinv.failed_spent rsn h).1 with hc | hc
    · exact Or.inl (by rw [hinv.draft_len]; exact hc)
    · exact Or.inr (by rw [hinv.fix_len]; exact hc)
  · exact engRun_fixed_from alwaysFail 9 (by decide)
  · exact engRun_fixed_from mathOkCompileFail 10 (by decide)
  · intro o n r hr
    have h3 : r < retryCeiling := by
      rcases hr with hr | hr
      · exact (engRun_inv o n).draft_lt r hr
      · exact (engRun_inv o n).fix_lt r hr
    simp only [attemptDisplay, retryCeiling] at *
    omega

/-- C2 witness: both consistently-failing runs evaluated at twelve
    transitions, and the badge formula at the last recorded retry
    index of the compile-repair log. -/
theorem retry_ceiling_respected_witness :
    ((engRun alwaysFail 12).draftRetries ≤ retryCeiling
      ∧ (engRun alwaysFail 12).fixRetries ≤ retryCeiling)
    ∧ ((engRun alwaysFail 12).draftLog.length = retryCeiling
        ∨ (engRun alwaysFail 12).fixLog.length = retryCeiling)
    ∧ engRun alwaysFail 12 = engRun alwaysFail 9
    ∧ engRun mathOkCompileFail 12 = engRun mathOkCompileFail 10
    ∧ attemptDisplay 2 ≤ 3 :=
  ⟨retry_ceiling_respected.2.1 alwaysFail 12,
   retry_ceiling_respected.2.2.1 alwaysFail 12 "retry_budget_exhausted:draft"
     (by decide),
   retry_ceiling_respected.2.2.2.2.1 12 (by decide),
   retry_ceiling_respected.2.2.2.2.2.2.1 12 (by decide),
   retry_ceiling_respected.2.2.2.2.2.2.2 mathOkCompileFail 10 2
     (Or.inr (by decide))⟩

/-- Every store action other than startGeneration extends the step
    log without touching the recorded steps. -/
theorem applyAction_steps_prefix (a : Action) (s : AppState)
    (h : a ≠ Action.startGeneration) :
    s.steps.IsPrefix (applyAction a s).steps := by
  cases a with
  | addStep st => exact ⟨[st], rfl⟩
  | startGeneration => exact absurd rfl h
  | setRequest p => exact List.prefix_rfl
  | resetRequest => exact List.prefix_rfl
  | setCurrentAgent ag => exact List.prefix_rfl
  | setResult r => exact List.prefix_rfl
  | setError e => exact List.prefix_rfl
  | toggleLatexEditor => exact List.prefix_rfl

/-- C8: the step log is append-only within a run: addStep appends its
    record at the end of the list, and any sequence of store actions
    that does not start a new run leaves every previously recorded
    step in place, as a prefix of the final audit trail. -/
theorem step_log_append_only :
    (∀ (step : AgentStep) (s : AppState),
      (applyAction (.addStep step) s).steps = s.steps ++ [step])
    ∧ ∀ (acts : List Action) (s : AppState),
        (∀ a ∈ acts, a ≠ Action.startGeneration) →
        s.steps.IsPrefix (applyActions acts s).steps := by
  refine ⟨fun step s => rfl, ?_⟩
  intro acts
  induction acts with
  | nil => exact fun s _ => List.prefix_rfl
  | cons a acts ih =>
    intro s h
    have h1 : s.steps.IsPrefix (applyAction a s).steps :=
      applyAction_steps_prefix a s (h a (List.mem_cons_self a acts))
    have h2 := ih (applyAction a s) fun b hb => h b (List.mem_cons_of_mem a hb)
    exact h1.trans h2

/-- C8 witness: from a state holding one step, recording a new agent
    and a fresh step keeps the recorded step as a prefix. -/
theorem step_log_append_only_witness :
    sampleState.steps.IsPrefix
      (applyActions
        [Action.setCurrentAgent (some "math_verifier"), Action.addStep sampleStep]
        sampleState).steps :=
  step_log_append_only.2 _ sampleState (by decide)

/-- The callback fired for an event is terminating exactly when the
    event closes the stream. -/
theorem callbackOf_isTerminal (e : SSEvent) :
    (callbackOf e).isTerminal = closesStream e := by
  cases e <;> rfl

/-- No callback is ever invoked after a terminating one. -/
theorem trace_no_call_after_terminal :
    ∀ (evs : List SSEvent) (l1 : List CBCall) (c : CBCall) (l2 : List CBCall),
      streamProgressTrace evs = l1 ++ c :: l2 → c.isTerminal = true → l2 = [] := by
  intro evs
  induction evs with
  | nil =>
    intro l1 c l2 h _
    rw [streamProgressTrace] at h
    exact absurd h.symm (List.append_ne_nil_of_right_ne_nil l1 (List.cons_ne_nil c l2))
  | cons e rest ih =>
    intro l1 c l2 h hc
    by_cases hce : closesStream e
    · rw [streamProgressTrace, if_pos hce] at h
      cases l1 with
      | nil =>
        simp only [List.nil_append, List.cons.injEq] at h
        exact h.2.symm
      | cons x l1 =>
        simp only [List.cons_append, List.cons.injEq] at h
        exact absurd h.2.symm
          (List.append_ne_nil_of_right_ne_nil l1 (List.cons_ne_nil c l2))
    · rw [streamProgressTrace, if_neg hce] at h
      cases l1 with
      | nil =>
        simp only [List.nil_append, List.cons.injEq] at h
        rw [← h.1, callbackOf_isTerminal] at hc
        exact absurd hc hce
      | cons x l1 =>
        simp only [List.cons_append, List.cons.injEq] at h
        exact ih l1 c l2 h.2 hc

/-- A stream containing a closing event produces exactly one
    terminating callback, at the end of the trace. -/
theorem trace_single_terminal :
    ∀ evs : List SSEvent, (∃ e ∈ evs, closesStream e = true) →
      ∃ l1 c, streamProgressTrace evs = l1 ++ [c]
        ∧ c.isTerminal = true ∧ ∀ x ∈ l1, x.isTerminal = false := by
  intro evs
  induction evs with
  | nil => rintro ⟨e, he, _⟩; cases he
  | cons e rest ih =>
    intro h
    by_cases hce : closesStream e
    · refine ⟨[], callbackOf e, ?_, ?_, by simp⟩
      · rw [streamProgressTrace, if_pos hce, List.nil_append]
      · rw [callbackOf_isTerminal]; exact hce
    · obtain ⟨e2, he2, hc2⟩ := h
      have he2r : e2 ∈ rest := by
        rcases List.mem_cons.mp he2 with rfl | hm
        · exact absurd hc2 hce
        · exact hm
      obtain ⟨l1, c, h1, h2, h3⟩ := ih ⟨e2, he2r, hc2⟩
      refine ⟨callbackOf e :: l1, c, ?_, h2, ?_⟩
      · rw [streamProgressTrace, if_neg hce, h1, List.cons_append]
      · intro x hx
        rcases List.mem_cons.mp hx with rfl | hm
        · rw [callbackOf_isTerminal]
          exact Bool.of_not_eq_true hce ▸ rfl
        · exact h3 x hm

/-- C7: the callback trace of streamProgress never invokes any
    callback after a terminating completion-or-failure callback, and a
    stream containing a closing event yields exactly one terminating
    callback, as the final invocation. -/
theorem stream_terminates_once :
    (∀ (evs : List SSEvent) (l1 : List CBCall) (c : CBCall) (l2 : List CBCall),
      streamProgressTrace evs = l1 ++ c :: l2 → c.isTerminal = true → l2 = [])
    ∧ ∀ evs : List SSEvent, (∃ e ∈ evs, closesStream e = true) →
        ∃ l1 c, streamProgressTrace evs = l1 ++ [c]
          ∧ c.isTerminal = true ∧ ∀ x ∈ l1, x.isTerminal = false :=
  ⟨trace_no_call_after_terminal, trace_single_terminal⟩

/-- C7 witness: a concrete stream with one step event, a completion
    event and a stray late event. -/
theorem stream_terminates_once_witness :
    (([] : List CBCall) = [])
    ∧ ∃ l1 c,
        streamProgressTrace
          [SSEvent.step "forfatter", SSEvent.complete "ok"] = l1 ++ [c]
        ∧ c.isTerminal = true ∧ ∀ x ∈ l1, x.isTerminal = false :=
  ⟨stream_terminates_once.1
      [SSEvent.step "a", SSEvent.complete "ok", SSEvent.step "late"]
      [CBCall.onStep "a"] (CBCall.onComplete "ok") [] (by decide) (by decide),
   stream_terminates_once.2 _ ⟨SSEvent.complete "ok", by decide, rfl⟩⟩

/-- C3 (amended): the status type admits exactly
    {pending, running, completed, failed}; every finished run ends in
    exactly one of {completed, failed} — for every oracle of check
    outcomes the engine reaches a terminal DONE or failed state within
    18 transitions, it never thereafter changes, and its status there
    is completed or failed, never running; and a failed result always
    carries a reason: the engine's failed state carries a nonempty
    retry_budget_exhausted reason, and a store failure installed by
    setError carries the supplied reason and stops the run. -/
theorem status_set_and_terminal_runs :
    (∀ s : Status, s = .pending ∨ s = .running ∨ s = .completed ∨ s = .failed)
    ∧ (∀ o : Nat → Bool,
        engStatus (engRun o 18) = .completed
        ∨ engStatus (engRun o 18) = .failed)
    ∧ (∀ (o : Nat → Bool) (n : Nat), 18 ≤ n → engRun o n = engRun o 18)
    ∧ (∀ (o : Nat → Bool) (n : Nat) (rsn : String),
        (engRun o n).node = .failed rsn → rsn ≠ "")
    ∧ (∀ (e : String) (st : AppState),
        (setError e st).result.map GenerationResult.status = some Status.failed
        ∧ (setError e st).result.map GenerationResult.error = some e
        ∧ (setError e st).isGenerating = false) := by
  refine ⟨?_, ?_, ?_, ?_, ?_⟩
  · intro s; cases s <;> simp
  · intro o
    exact engStatus_terminal _ (engRun_terminal_at_18 o)
  · intro o
    exact engRun_fixed_from o 18 (engRun_terminal_at_18 o)
  · intro o n rsn h
    rcases ((engRun_inv o n).failed_spent rsn h).2 with hr | hr <;>
      subst hr <;> decide
  · intro e st
    exact ⟨rfl, rfl, rfl⟩

/-- C3 witness: the claim components evaluated at the failed status,
    the consistently-failing oracle, a concrete failed run state and a
    concrete setError invocation. -/
theorem status_set_and_terminal_runs_witness :
    (Status.failed = .pending ∨ Status.failed = .running
      ∨ Status.failed = .completed ∨ Status.failed = .failed)
    ∧ (engStatus (engRun alwaysFail 18) = .completed
        ∨ engStatus (engRun alwaysFail 18) = .failed)
    ∧ engRun alwaysFail 20 = engRun alwaysFail 18
    ∧ "retry_budget_exhausted:draft" ≠ ""
    ∧ (setError "Connection lost" initialState).result.map
        GenerationResult.status = some Status.failed :=
  ⟨status_set_and_terminal_runs.1 Status.failed,
   status_set_and_terminal_runs.2.1 alwaysFail,
   status_set_and_terminal_runs.2.2.1 alwaysFail 20 (by decide),
   status_set_and_terminal_runs.2.2.2.1 alwaysFail 9
     "retry_budget_exhausted:draft" (by decide),
   (status_set_and_terminal_runs.2.2.2.2 "Connection lost" initialState).1⟩

/-- C4 witness: the amended statement evaluated at a concrete error
    on the sample mid-run state. -/
theorem setError_reason_kept_steps_emptied_witness :
    (setError "Noe gikk galt" sampleState).result.map
        GenerationResult.error = some "Noe gikk galt"
    ∧ (setError "Noe gikk galt" sampleState).steps = sampleState.steps :=
  ⟨(setError_reason_kept_steps_emptied "Noe gikk galt" sampleState).1,
   (setError_reason_kept_steps_emptied "Noe gikk galt" sampleState).2.2.2⟩

/-- C9 witness: the summary formulas evaluated at five correct, one
    incorrect and one unverifiable claim. -/
theorem math_summary_counts_witness :
    (mkMathVerification (5 + 1 + 1) 5).claimsIncorrect = 1 + 1
    ∧ ((mkMathVerification (5 + 1 + 1) 5).allCorrect = true ↔ (1 : Int) + 1 = 0) :=
  ⟨(math_summary_counts 5 1 1).1, (math_summary_counts 5 1 1).2.1⟩

end MateMaTeX
